import Mathlib

/-!
Shallow embedding of `ansi-senor` (src/main.rs): a tool that runs a child
command, tees its stdout and then its stderr to the console while
accumulating all lines into one buffer, derives a content-addressed HTML
output path, and propagates the child's exit code.

Byte streams are modelled as `List Nat` (each element < 256 in intended use),
machine integers as `Nat`/`Int` with explicit wrap-around where it matters.
-/

namespace AnsiSenor

/-- Splits a byte list at every occurrence of byte `10`, keeping a trailing
empty segment (so `split_core` always returns one more segment than the
number of delimiters).  Helper for `splitNL`. -/
def split_core : List Nat → List (List Nat)
  | [] => [[]]
  | 10 :: rest => [] :: split_core rest
  | b :: rest =>
    match split_core rest with
    | [] => [[b]]
    | seg :: segs => (b :: seg) :: segs

/-- `BufRead::split(b'\n')` as used in `run_command_with_capture`:
yields the segments between line-feed bytes, without the delimiter;
a final partial segment with no trailing delimiter is yielded, but a
trailing delimiter does not produce an extra empty segment, and an
empty stream yields no segments at all. -/
def splitNL (s : List Nat) : List (List Nat) :=
  match s.getLast? with
  | some 10 => (split_core s).dropLast
  | some _ => split_core s
  | none => []

/-- One tee pass of `run_command_with_capture` (the stdout loop at
src/main.rs:155-169, identically the stderr loop at 172-186): for each line,
write the line's bytes to the console sink, write a newline to the sink
unless the line is empty and the shared buffer already ends with `b'\n'`
(the Rust condition `!line.is_empty() || output_buffer.last() != Some(&b'\n')`),
flush, then append the line plus one newline byte to the shared buffer.
Returns (bytes written to the console sink, final buffer). -/
def tee_pass (buffer : List Nat) : List (List Nat) → List Nat × List Nat
  | [] => ([], buffer)
  | line :: rest =>
    let nl : List Nat := if line ≠ [] ∨ buffer.getLast? ≠ some 10 then [10] else []
    let r := tee_pass (buffer ++ line ++ [10]) rest
    (line ++ nl ++ r.1, r.2)

/-- Continuation byte test for UTF-8 (`0x80..=0xBF`). -/
def is_cont (b : Nat) : Bool := 128 ≤ b && b ≤ 191

/-- Valid second byte of a three-byte UTF-8 sequence, given the lead byte
(excludes overlong encodings and surrogates, as Rust's validator does). -/
def valid3_second (b c1 : Nat) : Bool :=
  if b = 224 then 160 ≤ c1 && c1 ≤ 191
  else if b = 237 then 128 ≤ c1 && c1 ≤ 159
  else is_cont c1

/-- Valid second byte of a four-byte UTF-8 sequence, given the lead byte. -/
def valid4_second (b c1 : Nat) : Bool :=
  if b = 240 then 144 ≤ c1 && c1 ≤ 191
  else if b = 244 then 128 ≤ c1 && c1 ≤ 143
  else is_cont c1

/-- One decoding step of `String::from_utf8_lossy`: given the lead byte `b`
and the bytes after it, return the decoded character (`none` meaning the
replacement character U+FFFD) and how many bytes after `b` were consumed.
Invalid sequences are replaced by U+FFFD per maximal-subpart resynchronisation,
exactly as Rust's lossy decoder does. -/
def utf8_step (b : Nat) (rest : List Nat) : Option Char × Nat :=
  if b < 128 then (some (Char.ofNat b), 0)
  else if b < 194 then (none, 0)
  else if b < 224 then
    match rest with
    | c1 :: _ =>
      if is_cont c1 then (some (Char.ofNat ((b - 192) * 64 + (c1 - 128))), 1)
      else (none, 0)
    | [] => (none, 0)
  else if b < 240 then
    match rest with
    | c1 :: rest1 =>
      if valid3_second b c1 then
        match rest1 with
        | c2 :: _ =>
          if is_cont c2 then
            (some (Char.ofNat ((b - 224) * 4096 + (c1 - 128) * 64 + (c2 - 128))), 2)
          else (none, 1)
        | [] => (none, 1)
      else (none, 0)
    | [] => (none, 0)
  else if b < 245 then
    match rest with
    | c1 :: rest1 =>
      if valid4_second b c1 then
        match rest1 with
        | c2 :: rest2 =>
          if is_cont c2 then
            match rest2 with
            | c3 :: _ =>
              if is_cont c3 then
                (some (Char.ofNat ((b - 240) * 262144 + (c1 - 128) * 4096 +
                  (c2 - 128) * 64 + (c3 - 128))), 3)
              else (none, 2)
            | [] => (none, 2)
          else (none, 1)
        | [] => (none, 1)
      else (none, 0)
    | [] => (none, 0)
  else (none, 0)

/-- The replacement character U+FFFD used by `String::from_utf8_lossy`. -/
def replacement_char : Char := Char.ofNat 65533

/-- Fuel-bounded worker for `utf8_lossy`; structural recursion on the fuel so
that the definition evaluates inside the kernel.  Each step consumes at least
one byte, so fuel equal to the list length never runs out. -/
def utf8_lossy_fuel : Nat → List Nat → List Char
  | 0, _ => []
  | _, [] => []
  | fuel + 1, b :: rest =>
    let st := utf8_step b rest
    (st.1.getD replacement_char) :: utf8_lossy_fuel fuel (rest.drop st.2)

/-- `String::from_utf8_lossy` (src/main.rs:191) over a byte list, producing
the character list of the resulting string. -/
def utf8_lossy (l : List Nat) : List Char := utf8_lossy_fuel l.length l

/-- Result of `run_command_with_capture` (src/main.rs:140-194), together with
the bytes the run writes to the tool's own stdout and stderr sinks (the
observable console trace of the two tee passes). The child is modelled by the
byte stream it produced on each pipe and by `statusCode`, the value of
`status.code()` after `wait` (`none` when the child was terminated without a
reportable code, e.g. by a signal). -/
structure CaptureResult where
  consoleOut : List Nat
  consoleErr : List Nat
  buffer : List Nat
  output_text : String
  exit_code : Int
  deriving Repr, DecidableEq

/-- `run_command_with_capture`: tee the stdout pipe to completion into the
shared buffer, then the stderr pipe, then `status.code().unwrap_or(1)` and
`String::from_utf8_lossy` of the buffer. -/
def run_command_with_capture (stdoutStream stderrStream : List Nat)
    (statusCode : Option Int) : CaptureResult :=
  let passOut := tee_pass [] (splitNL stdoutStream)
  let passErr := tee_pass passOut.2 (splitNL stderrStream)
  { consoleOut := passOut.1
    consoleErr := passErr.1
    buffer := passErr.2
    output_text := String.mk (utf8_lossy passErr.2)
    exit_code := statusCode.getD 1 }

/-- The amended echo behaviour, following the spec's words with the one
correction the counterexample forces: every line is written followed by a
line terminator, except that the terminator is omitted when the line is
empty and the shared buffer is already non-empty (equivalently, already ends
with a newline byte).  `bufferEmpty` says whether the buffer is empty when
the pass reaches this line; it is `false` for every line after the first. -/
def amended_echo : Bool → List (List Nat) → List Nat
  | _, [] => []
  | bufferEmpty, line :: rest =>
    (line ++ if line = [] ∧ bufferEmpty = false then [] else [10]) ++
      amended_echo false rest

/-! ### MD5 (the `md5` crate's `md5::compute`, used at src/main.rs:202) -/

/-- `2^32`, the word modulus of MD5's 32-bit arithmetic. -/
def M32 : Nat := 4294967296

/-- 32-bit left rotation of a word already reduced mod `2^32`. -/
def rotl32 (x s : Nat) : Nat := (x * 2 ^ s) % M32 ||| x / 2 ^ (32 - s)

/-- Bitwise complement within 32 bits. -/
def not32 (x : Nat) : Nat := x ^^^ 4294967295

/-- The MD5 per-round shift amounts. -/
def md5_s : List Nat :=
  [7, 12, 17, 22, 7, 12, 17, 22, 7, 12, 17, 22, 7, 12, 17, 22,
   5, 9, 14, 20, 5, 9, 14, 20, 5, 9, 14, 20, 5, 9, 14, 20,
   4, 11, 16, 23, 4, 11, 16, 23, 4, 11, 16, 23, 4, 11, 16, 23,
   6, 10, 15, 21, 6, 10, 15, 21, 6, 10, 15, 21, 6, 10, 15, 21]

/-- The MD5 sine-derived additive constants `T[i] = floor(2^32 * |sin(i+1)|)`. -/
def md5_T : List Nat :=
  [0xd76aa478, 0xe8c7b756, 0x242070db, 0xc1bdceee,
   0xf57c0faf, 0x4787c62a, 0xa8304613, 0xfd469501,
   0x698098d8, 0x8b44f7af, 0xffff5bb1, 0x895cd7be,
   0x6b901122, 0xfd987193, 0xa679438e, 0x49b40821,
   0xf61e2562, 0xc040b340, 0x265e5a51, 0xe9b6c7aa,
   0xd62f105d, 0x02441453, 0xd8a1e681, 0xe7d3fbc8,
   0x21e1cde6, 0xc33707d6, 0xf4d50d87, 0x455a14ed,
   0xa9e3e905, 0xfcefa3f8, 0x676f02d9, 0x8d2a4c8a,
   0xfffa3942, 0x8771f681, 0x6d9d6122, 0xfde5380c,
   0xa4beea44, 0x4bdecfa9, 0xf6bb4b60, 0xbebfbc70,
   0x289b7ec6, 0xeaa127fa, 0xd4ef3085, 0x04881d05,
   0xd9d4d039, 0xe6db99e5, 0x1fa27cf8, 0xc4ac5665,
   0xf4292244, 0x432aff97, 0xab9423a7, 0xfc93a039,
   0x655b59c3, 0x8f0ccc92, 0xffeff47d, 0x85845dd1,
   0x6fa87e4f, 0xfe2ce6e0, 0xa3014314, 0x4e0811a1,
   0xf7537e82, 0xbd3af235, 0x2ad7d2bb, 0xeb86d391]

/-- The MD5 round mixing function for round `i` (0-based). -/
def md5_f (i b c d : Nat) : Nat :=
  if i < 16 then (b &&& c) ||| (not32 b &&& d)
  else if i < 32 then (d &&& b) ||| (not32 d &&& c)
  else if i < 48 then b ^^^ c ^^^ d
  else c ^^^ (b ||| not32 d)

/-- The MD5 message-word index for round `i` (0-based). -/
def md5_g (i : Nat) : Nat :=
  if i < 16 then i
  else if i < 32 then (5 * i + 1) % 16
  else if i < 48 then (3 * i + 5) % 16
  else (7 * i) % 16

/-- The 16 little-endian 32-bit words of a 64-byte block. -/
def md5_words (block : List Nat) : List Nat :=
  (List.range 16).map fun j =>
    block.getD (4 * j) 0 + block.getD (4 * j + 1) 0 * 256 +
      block.getD (4 * j + 2) 0 * 65536 + block.getD (4 * j + 3) 0 * 16777216

/-- One MD5 round: rotate the state quadruple. -/
def md5_round (w : List Nat) (st : Nat × Nat × Nat × Nat) (i : Nat) :
    Nat × Nat × Nat × Nat :=
  let a := st.1
  let b := st.2.1
  let c := st.2.2.1
  let d := st.2.2.2
  let fv := (md5_f i b c d + a + md5_T.getD i 0 + w.getD (md5_g i) 0) % M32
  (d, (b + rotl32 fv (md5_s.getD i 0)) % M32, b, c)

/-- Process one 64-byte block: 64 rounds, then add the block result into the
running state (mod `2^32` componentwise). -/
def md5_block (st : Nat × Nat × Nat × Nat) (block : List Nat) :
    Nat × Nat × Nat × Nat :=
  let r := (List.range 64).foldl (md5_round (md5_words block)) st
  ((st.1 + r.1) % M32, (st.2.1 + r.2.1) % M32,
   (st.2.2.1 + r.2.2.1) % M32, (st.2.2.2 + r.2.2.2) % M32)

/-- MD5 padding: append `0x80`, zero-fill to 56 mod 64, then the bit length
as a little-endian 64-bit quantity. -/
def md5_pad (msg : List Nat) : List Nat :=
  let len := msg.length
  let zeros := (120 - (len + 1) % 64) % 64
  let bitLen := (8 * len) % 2 ^ 64
  msg ++ [128] ++ List.replicate zeros 0 ++
    (List.range 8).map fun j => bitLen / 2 ^ (8 * j) % 256

/-- Fuel-bounded worker for `md5_chunks`; structural recursion on the fuel so
that the definition evaluates inside the kernel.  Each step consumes 64 bytes,
so fuel equal to the list length never runs out. -/
def md5_chunks_fuel : Nat → List Nat → List (List Nat)
  | 0, _ => []
  | _, [] => []
  | fuel + 1, l => l.take 64 :: md5_chunks_fuel fuel (l.drop 64)

/-- Split a padded message into 64-byte chunks. -/
def md5_chunks (l : List Nat) : List (List Nat) := md5_chunks_fuel l.length l

/-- `md5::compute`: the 16 digest bytes (state words serialised little-endian). -/
def md5_compute (msg : List Nat) : List Nat :=
  let st := (md5_chunks (md5_pad msg)).foldl md5_block
    (0x67452301, 0xefcdab89, 0x98badcfe, 0x10325476)
  [st.1, st.2.1, st.2.2.1, st.2.2.2].flatMap fun x =>
    [x % 256, x / 256 % 256, x / 65536 % 256, x / 16777216 % 256]

/-- Lowercase hexadecimal digit. -/
def hex_digit (n : Nat) : Char :=
  if n < 10 then Char.ofNat (48 + n) else Char.ofNat (87 + n)

/-- A byte as two lowercase hex characters (Rust's `format!("{:x}", digest)`
prints each digest byte as `{:02x}`). -/
def byte_hex (b : Nat) : List Char := [hex_digit (b / 16), hex_digit (b % 16)]

/-- `format!("{:x}", md5::compute(bytes))`: the 32-character lowercase
hexadecimal rendering of the digest. -/
def md5_hex (msg : List Nat) : String := String.mk ((md5_compute msg).flatMap byte_hex)

set_option maxRecDepth 100000 in
/-- RFC 1321 test vector: the MD5 of the empty message, validating the
embedded MD5 against the `md5` crate. -/
theorem md5_hex_empty_vector : md5_hex [] = "d41d8cd98f00b204e9800998ecf8427e" := by
  decide

set_option maxRecDepth 100000 in
/-- RFC 1321 test vector: the MD5 of `"abc"`. -/
theorem md5_hex_abc_vector :
    md5_hex [97, 98, 99] = "900150983cd24fb0d6963f7d28e17f72" := by
  decide

/-! ### Path derivation (`generate_output_path`, src/main.rs:196-213) -/

/-- Standard UTF-8 encoding of one character (Rust's `str::as_bytes` view). -/
def encode_utf8_char (c : Char) : List Nat :=
  let n := c.toNat
  if n < 128 then [n]
  else if n < 2048 then [192 + n / 64, 128 + n % 64]
  else if n < 65536 then [224 + n / 4096, 128 + n / 64 % 64, 128 + n % 64]
  else [240 + n / 262144, 128 + n / 4096 % 64, 128 + n / 64 % 64, 128 + n % 64]

/-- `output_text.as_bytes()`: the UTF-8 bytes of a string. -/
def utf8Encode (s : String) : List Nat := (s.data.map encode_utf8_char).flatten

/-- `str::replace(' ', '-')`: every space character becomes a dash. -/
def dashify (s : String) : String :=
  String.mk (s.data.map fun c => if c = ' ' then '-' else c)

/-- `PathBuf::join` on Unix: an absolute argument (one that begins with the
separator) replaces the base entirely; otherwise the argument is appended to
the base, inserting a `/` separator unless the base is empty or already ends
with one. -/
def path_join (a b : String) : String :=
  if b.data.head? = some '/' then b
  else if a = "" then b
  else if a.data.getLast? = some '/' then a ++ b
  else a ++ "/" ++ b

/-- `generate_output_path`: a user-supplied path is returned verbatim;
otherwise the path is `<temp dir>/ansi-senor/<command joined with spaces,
spaces replaced by dashes>-<first 8 hex chars of the md5 digest of the
output text>.html`.  `std::env::temp_dir()` is surfaced as the explicit
parameter `tempDir`; the function touches no other state. -/
def generate_output_path (tempDir : String) (command : List String)
    (output_text : String) (custom_output : Option String) : String :=
  match custom_output with
  | some path => path
  | none =>
    let hash := md5_hex (utf8Encode output_text)
    let command_name := dashify (String.intercalate " " command)
    let filename := command_name ++ "-" ++ hash.take 8 ++ ".html"
    path_join (path_join tempDir "ansi-senor") filename

/-! ### Duration formatting (`format_duration`, src/main.rs:215-237) -/

/-- `format_duration` over `duration.as_secs()`: builds `h`/`m`/`s` parts;
the seconds part is pushed when nonzero or when no part exists yet, and the
`" took < 1s"` fallback fires only when the part list ends empty. -/
def format_duration (secs : Nat) : String :=
  let hours := secs / 3600
  let minutes := secs % 3600 / 60
  let seconds := secs % 60
  let parts₁ : List String := if hours > 0 then [toString hours ++ "h"] else []
  let parts₂ : List String :=
    parts₁ ++ (if minutes > 0 then [toString minutes ++ "m"] else [])
  let parts : List String :=
    parts₂ ++ (if seconds > 0 ∨ parts₂ = [] then [toString seconds ++ "s"] else [])
  if parts = [] then " took < 1s"
  else " took " ++ String.join parts

/-! ### Themes, document assembly and the `main` pipeline (src/main.rs:26-138) -/

/-- The color theme selected on the command line. -/
inductive Theme where
  | Light : Theme
  | Dark : Theme
  deriving Repr, DecidableEq

/-- `Theme::background_color`. -/
def Theme.background_color : Theme → String
  | Theme.Light => "#ffffff"
  | Theme.Dark => "#1e1e1e"

/-- `Theme::text_color`. -/
def Theme.text_color : Theme → String
  | Theme.Light => "#24292e"
  | Theme.Dark => "#d4d4d4"

/-- The validated command-line arguments (`Args`). -/
structure Args where
  output : Option String
  theme : Theme
  command : List String

/-- The HTML shell built by `format!` at src/main.rs:99-127: fixed head with
the command as title, inline CSS with the theme's colors, and the converted
markup verbatim inside a `<pre>` block. -/
def html_template (title bg fg markup : String) : String :=
  "<!DOCTYPE html>\n<html>\n<head>\n    <meta charset=\"UTF-8\">\n    <title>" ++
  title ++
  "</title>\n    <style>\n        body \x7b\n            background-color: " ++
  bg ++
  ";\n            color: " ++
  fg ++
  ";\n            font-family: \x27Consolas\x27, \x27Courier New\x27, monospace;\n            padding: 20px;\n            margin: 0;\n        \x7d\n        pre \x7b\n            white-space: pre-wrap;\n            word-wrap: break-word;\n        \x7d\n    </style>\n</head>\n<body>\n    <pre>" ++
  markup ++
  "</pre>\n</body>\n</html>"

/-- Observable actions of the `main` pipeline after the child ran: the two
console echo passes, each text printed to the tool's stdout, and a file
write. -/
inductive Event where
  | echoOut : List Nat → Event
  | echoErr : List Nat → Event
  | print : String → Event
  | fileWrite : String → String → Event
  deriving Repr, DecidableEq

/-- The console summary block printed at src/main.rs:77-84: separator,
prompt line with the command, duration suffix, the captured text, a newline
when the captured text does not already end with one, closing separator. -/
def summary_events (command : List String) (elapsedSecs : Nat)
    (output_text : String) : List Event :=
  [Event.print "\n---\n",
   Event.print ("❯ " ++ String.intercalate " " command),
   Event.print (format_duration elapsedSecs ++ "\n"),
   Event.print output_text] ++
  (if output_text.data.getLast? = some '\n' then [] else [Event.print "\n"]) ++
  [Event.print "---\n\n"]

/-- The `main` pipeline from after argument parsing to process exit
(src/main.rs:60-138).  The child is modelled by its two output streams and
its wait status; wall-clock elapsed time by `elapsedSecs`; the external
`ansi_to_html::convert` collaborator by the injected `convert` function
(directory creation and the file write itself always succeed in this model).
Returns the list of observable events and either the propagated exit code or
the error that aborted the run. -/
def mainModel (tempDir : String) (args : Args)
    (stdoutStream stderrStream : List Nat) (statusCode : Option Int)
    (elapsedSecs : Nat) (convert : String → Except String String) :
    List Event × Except String Int :=
  if args.command = [] then ([], Except.error "No command specified")
  else
    let r := run_command_with_capture stdoutStream stderrStream statusCode
    let pre : List Event :=
      [Event.echoOut r.consoleOut, Event.echoErr r.consoleErr] ++
      summary_events args.command elapsedSecs r.output_text
    let output_path := generate_output_path tempDir args.command r.output_text args.output
    match convert r.output_text with
    | Except.error e => (pre, Except.error ("Failed to convert ANSI to HTML: " ++ e))
    | Except.ok html_content =>
      let full_html := html_template (String.intercalate " " args.command)
        args.theme.background_color args.theme.text_color html_content
      (pre ++ [Event.fileWrite output_path full_html,
               Event.print ("Output saved to " ++ output_path ++ "\n")],
       Except.ok r.exit_code)

/-! ### Lemmas about UTF-8 lossy decoding -/

theorem is_cont_ge (c : Nat) (h : is_cont c = true) : 128 ≤ c := by
  simp [is_cont] at h
  omega

theorem valid3_second_ge (b c : Nat) (h : valid3_second b c = true) : 128 ≤ c := by
  unfold valid3_second at h
  split_ifs at h <;> simp_all [is_cont] <;> omega

theorem valid4_second_ge (b c : Nat) (h : valid4_second b c = true) : 128 ≤ c := by
  unfold valid4_second at h
  split_ifs at h <;> simp_all [is_cont] <;> omega

theorem utf8_step_spec (b : Nat) (rest : List Nat) :
    (utf8_step b rest).2 ≤ rest.length ∧ ∀ x ∈ rest.take (utf8_step b rest).2, 128 ≤ x := by
  unfold utf8_step
  split_ifs with h1 h2 h3 h4
  · exact ⟨Nat.zero_le _, by simp⟩
  · exact ⟨Nat.zero_le _, by simp⟩
  · -- two-byte lead
    rcases rest with _ | ⟨c1, rest1⟩
    · exact ⟨Nat.zero_le _, by simp⟩
    dsimp only
    by_cases hc1 : is_cont c1 = true
    · rw [if_pos hc1]
      dsimp only
      refine ⟨by simp, ?_⟩
      intro x hx
      simp at hx
      subst hx
      exact is_cont_ge _ hc1
    · rw [if_neg hc1]
      exact ⟨Nat.zero_le _, by simp⟩
  · -- three-byte lead
    rcases rest with _ | ⟨c1, rest1⟩
    · exact ⟨Nat.zero_le _, by simp⟩
    dsimp only
    by_cases hv : valid3_second b c1 = true
    · rw [if_pos hv]
      rcases rest1 with _ | ⟨c2, rest2⟩
      · dsimp only
        refine ⟨by simp, ?_⟩
        intro x hx
        simp at hx
        subst hx
        exact valid3_second_ge _ _ hv
      dsimp only
      by_cases hc2 : is_cont c2 = true
      · rw [if_pos hc2]
        dsimp only
        refine ⟨by simp, ?_⟩
        intro x hx
        simp at hx
        rcases hx with hx | hx <;> subst hx
        · exact valid3_second_ge _ _ hv
        · exact is_cont_ge _ hc2
      · rw [if_neg hc2]
        dsimp only
        refine ⟨by simp, ?_⟩
        intro x hx
        simp at hx
        subst hx
        exact valid3_second_ge _ _ hv
    · rw [if_neg hv]
      exact ⟨Nat.zero_le _, by simp⟩
  · -- four-byte lead
    rcases rest with _ | ⟨c1, rest1⟩
    · exact ⟨Nat.zero_le _, by simp⟩
    dsimp only
    by_cases hv : valid4_second b c1 = true
    · rw [if_pos hv]
      rcases rest1 with _ | ⟨c2, rest2⟩
      · dsimp only
        refine ⟨by simp, ?_⟩
        intro x hx
        simp at hx
        subst hx
        exact valid4_second_ge _ _ hv
      dsimp only
      by_cases hc2 : is_cont c2 = true
      · rw [if_pos hc2]
        rcases rest2 with _ | ⟨c3, rest3⟩
        · dsimp only
          refine ⟨by simp, ?_⟩
          intro x hx
          simp at hx
          rcases hx with hx | hx <;> subst hx
          · exact valid4_second_ge _ _ hv
          · exact is_cont_ge _ hc2
        dsimp only
        by_cases hc3 : is_cont c3 = true
        · rw [if_pos hc3]
          dsimp only
          refine ⟨by simp, ?_⟩
          intro x hx
          simp at hx
          rcases hx with hx | hx | hx <;> subst hx
          · exact valid4_second_ge _ _ hv
          · exact is_cont_ge _ hc2
          · exact is_cont_ge _ hc3
        · rw [if_neg hc3]
          dsimp only
          refine ⟨by simp, ?_⟩
          intro x hx
          simp at hx
          rcases hx with hx | hx <;> subst hx
          · exact valid4_second_ge _ _ hv
          · exact is_cont_ge _ hc2
      · rw [if_neg hc2]
        dsimp only
        refine ⟨by simp, ?_⟩
        intro x hx
        simp at hx
        subst hx
        exact valid4_second_ge _ _ hv
    · rw [if_neg hv]
      exact ⟨Nat.zero_le _, by simp⟩
  · exact ⟨Nat.zero_le _, by simp⟩

theorem mem_of_getLast?_eq (l : List Nat) (a : Nat) (h : l.getLast? = some a) : a ∈ l := by
  induction l with
  | nil => simp at h
  | cons b t ih =>
    rcases t with _ | ⟨c, t1⟩
    · simp at h
      simp [h]
    · rw [List.getLast?_cons_cons] at h
      exact List.mem_cons_of_mem _ (ih h)

theorem utf8_lossy_fuel_nil (fuel : Nat) : utf8_lossy_fuel fuel [] = [] := by
  cases fuel <;> rfl

theorem utf8_lossy_fuel_ne_nil (fuel : Nat) (l : List Nat) (hf : 1 ≤ fuel)
    (h : l ≠ []) : utf8_lossy_fuel fuel l ≠ [] := by
  rcases fuel with _ | fuel
  · omega
  rcases l with _ | ⟨b, rest⟩
  · exact absurd rfl h
  · simp [utf8_lossy_fuel]

theorem utf8_lossy_fuel_getLast :
    ∀ fuel, ∀ l : List Nat, l.length ≤ fuel → l.getLast? = some 10 →
      (utf8_lossy_fuel fuel l).getLast? = some (Char.ofNat 10) := by
  intro fuel
  induction fuel with
  | zero =>
    intro l hl h10
    have hnil : l = [] := List.eq_nil_of_length_eq_zero (Nat.le_zero.mp hl)
    subst hnil
    simp at h10
  | succ n ih =>
    intro l hl h10
    rcases l with _ | ⟨b, rest⟩
    · simp at h10
    rcases rest with _ | ⟨c, rest1⟩
    · have hb : b = 10 := by simpa using h10
      subst hb
      have hv : utf8_lossy_fuel (n + 1) [10] = [Char.ofNat 10] := by
        simp [utf8_lossy_fuel, utf8_step, utf8_lossy_fuel_nil]
      rw [hv]
      rfl
    have h10r : (c :: rest1).getLast? = some 10 := by
      rwa [List.getLast?_cons_cons] at h10
    obtain ⟨hkle, hktake⟩ := utf8_step_spec b (c :: rest1)
    have hklt : (utf8_step b (c :: rest1)).2 < (c :: rest1).length := by
      rcases Nat.lt_or_ge (utf8_step b (c :: rest1)).2 (c :: rest1).length with hlt | hge
      · exact hlt
      exfalso
      have hkeq : (utf8_step b (c :: rest1)).2 = (c :: rest1).length :=
        Nat.le_antisymm hkle hge
      have htake : (c :: rest1).take (utf8_step b (c :: rest1)).2 = c :: rest1 := by
        rw [hkeq, List.take_length]
      have h10mem : (10 : Nat) ∈ c :: rest1 := mem_of_getLast?_eq _ _ h10r
      have := hktake 10 (by rw [htake]; exact h10mem)
      omega
    have hdl : ((c :: rest1).drop (utf8_step b (c :: rest1)).2).getLast? = some 10 := by
      rw [List.getLast?_drop, if_neg (Nat.not_le.mpr hklt)]
      exact h10r
    have hdne : (c :: rest1).drop (utf8_step b (c :: rest1)).2 ≠ [] := by
      intro hn
      rw [hn] at hdl
      simp at hdl
    have hlen : ((c :: rest1).drop (utf8_step b (c :: rest1)).2).length ≤ n := by
      have h1 := List.length_drop (utf8_step b (c :: rest1)).2 (c :: rest1)
      have h2 : (b :: c :: rest1).length ≤ n + 1 := hl
      simp only [List.length_cons] at h1 h2 ⊢
      omega
    have hfge : 1 ≤ n := by
      have h2 : (b :: c :: rest1).length ≤ n + 1 := hl
      simp only [List.length_cons] at h2
      omega
    have htail := ih _ hlen hdl
    have htne := utf8_lossy_fuel_ne_nil n _ hfge hdne
    show ((utf8_step b (c :: rest1)).1.getD replacement_char ::
      utf8_lossy_fuel n ((c :: rest1).drop (utf8_step b (c :: rest1)).2)).getLast? =
        some (Char.ofNat 10)
    rcases hx : utf8_lossy_fuel n ((c :: rest1).drop (utf8_step b (c :: rest1)).2)
      with _ | ⟨y, ys⟩
    · exact absurd hx htne
    · rw [hx] at htail
      rw [List.getLast?_cons_cons]
      exact htail

theorem utf8_lossy_getLast (l : List Nat) (h : l.getLast? = some 10) :
    (utf8_lossy l).getLast? = some (Char.ofNat 10) :=
  utf8_lossy_fuel_getLast l.length l le_rfl h

theorem flatten_lines_getLast (lines : List (List Nat)) :
    lines = [] ∨ ((lines.map fun l => l ++ [10]).flatten).getLast? = some 10 := by
  induction lines with
  | nil => exact Or.inl rfl
  | cons l ls ih =>
    right
    rcases ih with h | h
    · subst h
      simp
    · simp only [List.map_cons, List.flatten_cons]
      rw [List.getLast?_append, h]
      rfl

/-! ### Lemmas about the tee passes -/

/-- `splitNL` of the empty stream yields no lines. -/
theorem splitNL_nil : splitNL [] = [] := rfl

/-- The bytes a tee pass appends to the shared buffer are exactly each line
followed by one newline byte, independently of the initial buffer contents. -/
theorem tee_pass_buffer (lines : List (List Nat)) (buffer : List Nat) :
    (tee_pass buffer lines).2 = buffer ++ (lines.map fun l => l ++ [10]).flatten := by
  induction lines generalizing buffer with
  | nil => simp [tee_pass]
  | cons line rest ih =>
    simp only [tee_pass, ih, List.map_cons, List.flatten_cons, List.append_assoc]

/-- The bytes a tee pass writes to its console sink form a sublist of the
bytes it appends to the shared buffer. -/
theorem tee_pass_console_sublist (lines : List (List Nat)) (buffer : List Nat) :
    ((tee_pass buffer lines).1).Sublist (lines.map fun l => l ++ [10]).flatten := by
  induction lines generalizing buffer with
  | nil => simp [tee_pass]
  | cons line rest ih =>
    simp only [tee_pass, List.map_cons, List.flatten_cons, List.append_assoc,
      List.singleton_append]
    refine List.Sublist.append_left ?_ line
    by_cases h : line ≠ [] ∨ buffer.getLast? ≠ some 10
    · simp only [if_pos h, List.singleton_append]
      exact (ih (buffer ++ (line ++ [10]))).cons₂ 10
    · simp only [if_neg h, List.nil_append]
      exact (ih (buffer ++ (line ++ [10]))).cons 10

/-- The frozen buffer of a run is the stdout lines, then the stderr lines,
each line followed by one newline byte. -/
theorem run_buffer_eq (stdoutStream stderrStream : List Nat) (statusCode : Option Int) :
    (run_command_with_capture stdoutStream stderrStream statusCode).buffer =
      ((splitNL stdoutStream).map fun l => l ++ [10]).flatten ++
      ((splitNL stderrStream).map fun l => l ++ [10]).flatten := by
  simp [run_command_with_capture, tee_pass_buffer]

/-! ### C1 -/

/-- C1: every byte written to the console during capture (the tool's stdout
sink during the stdout pass followed by its stderr sink during the stderr
pass) also occurs in the frozen buffer, in the same order, exactly once:
the concatenated console bytes are a sublist of the buffer. -/
theorem console_bytes_in_buffer (stdoutStream stderrStream : List Nat)
    (statusCode : Option Int) :
    ((run_command_with_capture stdoutStream stderrStream statusCode).consoleOut ++
     (run_command_with_capture stdoutStream stderrStream statusCode).consoleErr).Sublist
      (run_command_with_capture stdoutStream stderrStream statusCode).buffer := by
  simp only [run_command_with_capture, tee_pass_buffer, List.nil_append]
  exact (tee_pass_console_sublist _ _).append (tee_pass_console_sublist _ _)

/-! ### C2 -/

/-- C2: when the child writes only to stdout, the accumulated buffer equals
the lines of that stream (split on line-feed bytes, with a final partial
line included) each followed by exactly one newline byte, in order. -/
theorem stdout_only_buffer (stdoutStream : List Nat) (statusCode : Option Int) :
    (run_command_with_capture stdoutStream [] statusCode).buffer =
      ((splitNL stdoutStream).map fun l => l ++ [10]).flatten := by
  simp [run_command_with_capture, splitNL_nil, tee_pass_buffer, tee_pass]

/-! ### C3 -/

/-- C3 as stated is false: with stdout stream `"a\n\n"` the second (empty)
line is echoed without a line terminator, so the console bytes differ from
every-line-followed-by-a-terminator. -/
theorem echo_terminator_counterexample :
    (run_command_with_capture [97, 10, 10] [] (some 0)).consoleOut ≠
      ((splitNL [97, 10, 10]).map fun l => l ++ [10]).flatten := by
  decide

/-- C3 amended: for every line read from a child stream, the tee writes the
line's bytes followed by a line terminator, omitting the terminator exactly
when the line is empty and the accumulation buffer is non-empty (the buffer
always ends with a newline byte when non-empty). -/
theorem echo_every_line_amended (lines : List (List Nat)) (buffer : List Nat)
    (h : buffer = [] ∨ buffer.getLast? = some 10) :
    (tee_pass buffer lines).1 = amended_echo buffer.isEmpty lines := by
  induction lines generalizing buffer with
  | nil => simp [tee_pass, amended_echo]
  | cons line rest ih =>
    have hrec := ih (buffer ++ line ++ [10]) (Or.inr (List.getLast?_concat _))
    have hne : (buffer ++ line ++ [10]).isEmpty = false := by
      simp [List.isEmpty_eq_false]
    rw [hne] at hrec
    rcases h with h | h
    · subst h
      simp only [tee_pass, hrec, amended_echo, List.isEmpty_nil]
      have hc : line ≠ [] ∨ ([] : List Nat).getLast? ≠ some 10 := by simp
      simp [if_pos hc]
    · have hbne : buffer.isEmpty = false := by
        rcases buffer with _ | _ <;> simp_all
      simp only [tee_pass, hrec, amended_echo, hbne]
      by_cases hl : line = []
      · subst hl
        have hc : ¬(([] : List Nat) ≠ [] ∨ buffer.getLast? ≠ some 10) := by simp [h]
        simp [if_neg hc, h]
      · have hc : line ≠ [] ∨ buffer.getLast? ≠ some 10 := Or.inl hl
        simp [if_pos hc, hl]

/-- Witness for the amended C3 at a concrete input: the pass over lines
`["a", ""]` starting from the empty buffer. -/
theorem echo_every_line_amended_witness :
    (([] : List Nat) = [] ∨ ([] : List Nat).getLast? = some 10) ∧
      (tee_pass [] [[97], []]).1 = amended_echo (([] : List Nat).isEmpty) [[97], []] :=
  ⟨Or.inl rfl, echo_every_line_amended [[97], []] [] (Or.inl rfl)⟩

/-! ### C4 -/

/-- C4: the stderr pass runs only after the stdout stream is fully drained,
so the frozen buffer is the stdout lines' bytes followed by the stderr
lines' bytes, regardless of how the child interleaved them in real time. -/
theorem stdout_precedes_stderr (stdoutStream stderrStream : List Nat)
    (statusCode : Option Int) :
    (run_command_with_capture stdoutStream stderrStream statusCode).buffer =
      ((splitNL stdoutStream).map fun l => l ++ [10]).flatten ++
      ((splitNL stderrStream).map fun l => l ++ [10]).flatten := by
  simp [run_command_with_capture, tee_pass_buffer]

/-! ### C6 -/

/-- C6: an explicit output path is returned unchanged, for every command and
every output content; hash-based derivation is bypassed. -/
theorem custom_output_path_verbatim (tempDir : String) (command : List String)
    (output_text : String) (path : String) :
    generate_output_path tempDir command output_text (some path) = path := rfl

/-! ### C9 -/

/-- C9 evaluated on the code: 0 elapsed seconds renders as `" took 0s"`
(the `" took < 1s"` fallback in the source is unreachable because the
seconds part is pushed whenever the part list is still empty), while the
65-second and 3661-second cases match the spec. -/
theorem format_duration_values :
    format_duration 0 = " took 0s" ∧ format_duration 65 = " took 1m5s" ∧
      format_duration 3661 = " took 1h1m1s" := by
  refine ⟨?_, ?_, ?_⟩ <;> rfl

/-- Every value of `hex_digit` on a nibble is a lowercase hex character. -/
theorem hex_digit_mem (n : Nat) (h : n < 16) :
    hex_digit n ∈ ("0123456789abcdef").data := by
  have H : ∀ m, m < 16 → hex_digit m ∈ ("0123456789abcdef").data := by decide
  exact H n h

/-- MD5 digest bytes are bytes. -/
theorem md5_compute_lt (msg : List Nat) : ∀ b ∈ md5_compute msg, b < 256 := by
  intro b hb
  unfold md5_compute at hb
  simp only [List.flatMap_cons, List.flatMap_nil, List.append_nil, List.mem_append,
    List.mem_cons, List.not_mem_nil, or_false] at hb
  rcases hb with h | h | h | h <;> rcases h with h | h | h | h <;> subst h <;>
    exact Nat.mod_lt _ (by norm_num)

/-- The hex rendering of an MD5 digest has exactly 32 characters. -/
theorem md5_hex_length (msg : List Nat) : (md5_hex msg).length = 32 := by
  unfold md5_hex md5_compute
  simp [String.length_mk, byte_hex]

/-- The hex rendering of an MD5 digest consists of hexadecimal characters. -/
theorem md5_hex_chars (msg : List Nat) :
    ∀ c ∈ (md5_hex msg).data, c ∈ ("0123456789abcdef").data := by
  intro c hc
  have hc2 : c ∈ (md5_compute msg).flatMap byte_hex := hc
  rw [List.mem_flatMap] at hc2
  obtain ⟨b, hb, hcb⟩ := hc2
  have hblt := md5_compute_lt msg b hb
  simp only [byte_hex, List.mem_cons, List.not_mem_nil, or_false] at hcb
  rcases hcb with h | h <;> subst h
  · exact hex_digit_mem _ (by omega)
  · exact hex_digit_mem _ (Nat.mod_lt _ (by norm_num))

/-! ### C5 -/

set_option maxRecDepth 1000000 in
/-- C5 as stated is false: for the command `["/bin/ls"]` the derived filename
`/bin/ls-<hash>.html` begins with the path separator, so `PathBuf::join`
makes it the resolved path itself instead of placing it under
`<temp dir>/ansi-senor/`. -/
theorem derived_output_path_counterexample :
    generate_output_path "/tmp" ["/bin/ls"] "" none ≠
      "/tmp" ++ "/ansi-senor/" ++ dashify (String.intercalate " " ["/bin/ls"]) ++ "-" ++
        (md5_hex (utf8Encode "")).take 8 ++ ".html" := by
  decide

/-- The head character of a string append. -/
theorem head?_data_append (s t : String) :
    (s ++ t).data.head? = s.data.head?.or t.data.head? := by
  rw [String.data_append, List.head?_append]

/-- C5 amended: with no override, the resolved output path is a pure function
of the command and the captured output.  The filename is the command joined
with spaces, spaces replaced by dashes, a dash, the first 8 of the 32
hexadecimal characters of the digest of the output text, and `.html`; it is
placed under `<system temp dir>/ansi-senor/` unless the rendered command
begins with `/`, in which case the filename is an absolute path and
`PathBuf::join` makes it the resolved path itself.  `tempDir` stands for
`std::env::temp_dir()`, assumed non-empty and without a trailing separator
as on Unix; determinism is inherent, as the embedding is a pure function of
exactly these inputs. -/
theorem derived_output_path (tempDir : String) (command : List String)
    (output_text : String) (htd1 : tempDir ≠ "")
    (htd2 : tempDir.data.getLast? ≠ some '/') :
    (generate_output_path tempDir command output_text none =
      if (dashify (String.intercalate " " command)).data.head? = some '/' then
        dashify (String.intercalate " " command) ++ "-" ++
          (md5_hex (utf8Encode output_text)).take 8 ++ ".html"
      else
        tempDir ++ "/ansi-senor/" ++ dashify (String.intercalate " " command) ++ "-" ++
          (md5_hex (utf8Encode output_text)).take 8 ++ ".html") ∧
    (md5_hex (utf8Encode output_text)).length = 32 ∧
    (∀ c ∈ (md5_hex (utf8Encode output_text)).data, c ∈ ("0123456789abcdef").data) := by
  refine ⟨?_, md5_hex_length _, md5_hex_chars _⟩
  have hinner : path_join tempDir "ansi-senor" = tempDir ++ "/" ++ "ansi-senor" := by
    unfold path_join
    rw [if_neg (by decide), if_neg htd1, if_neg htd2]
  have hbase_last : (tempDir ++ "/" ++ "ansi-senor").data.getLast? = some 'r' := by
    rw [String.data_append, List.getLast?_append]
    rfl
  have hbase_lastne : ¬ (tempDir ++ "/" ++ "ansi-senor").data.getLast? = some '/' := by
    rw [hbase_last]
    decide
  have hbase_ne : tempDir ++ "/" ++ "ansi-senor" ≠ "" := by
    intro h
    rw [h] at hbase_last
    exact absurd hbase_last (by decide)
  show path_join (path_join tempDir "ansi-senor")
      (dashify (String.intercalate " " command) ++ "-" ++
        (md5_hex (utf8Encode output_text)).take 8 ++ ".html") = _
  rw [hinner]
  rcases hd : (dashify (String.intercalate " " command)).data with _ | ⟨c, cs⟩
  · have hf : (dashify (String.intercalate " " command) ++ "-" ++
        (md5_hex (utf8Encode output_text)).take 8 ++ ".html").data.head? = some '-' := by
      rw [head?_data_append, head?_data_append, head?_data_append, hd]
      rfl
    have hfne : ¬ (dashify (String.intercalate " " command) ++ "-" ++
        (md5_hex (utf8Encode output_text)).take 8 ++ ".html").data.head? = some '/' := by
      rw [hf]
      decide
    unfold path_join
    rw [if_neg hfne, if_neg hbase_ne, if_neg hbase_lastne,
      if_neg (show ¬ (List.head? ([] : List Char) = some '/') by decide)]
    simp [String.append_assoc]
  · have hf : (dashify (String.intercalate " " command) ++ "-" ++
        (md5_hex (utf8Encode output_text)).take 8 ++ ".html").data.head? = some c := by
      rw [head?_data_append, head?_data_append, head?_data_append, hd]
      rfl
    by_cases hcc : c = '/'
    · subst hcc
      unfold path_join
      rw [if_pos hf, if_pos (show List.head? ('/' :: cs) = some '/' from rfl)]
    · have hfne : ¬ (dashify (String.intercalate " " command) ++ "-" ++
          (md5_hex (utf8Encode output_text)).take 8 ++ ".html").data.head? = some '/' := by
        rw [hf]
        simp [hcc]
      unfold path_join
      rw [if_neg hfne, if_neg hbase_ne, if_neg hbase_lastne,
        if_neg (show ¬ (List.head? (c :: cs) = some '/') by simp [hcc])]
      simp [String.append_assoc]

/-- Witness for the amended C5 at a concrete input: the absolute command
`["/bin/ls"]` under temp dir `/tmp`. -/
theorem derived_output_path_witness :
    (("/tmp" : String) ≠ "" ∧ ("/tmp" : String).data.getLast? ≠ some '/') ∧
    generate_output_path "/tmp" ["/bin/ls"] "" none =
      (if (dashify (String.intercalate " " ["/bin/ls"])).data.head? = some '/' then
        dashify (String.intercalate " " ["/bin/ls"]) ++ "-" ++
          (md5_hex (utf8Encode "")).take 8 ++ ".html"
      else
        "/tmp" ++ "/ansi-senor/" ++ dashify (String.intercalate " " ["/bin/ls"]) ++ "-" ++
          (md5_hex (utf8Encode "")).take 8 ++ ".html") :=
  ⟨⟨by decide, by decide⟩,
    (derived_output_path "/tmp" ["/bin/ls"] "" (by decide) (by decide)).1⟩

/-! ### C7 -/

/-- C7: on a successful full run the tool exits with the child's exit code,
and with the fallback code 1 when the child terminated without a reportable
code (e.g. killed by a signal). -/
theorem exit_code_propagation (tempDir : String) (args : Args)
    (stdoutStream stderrStream : List Nat) (statusCode : Option Int)
    (elapsedSecs : Nat) (convert : String → Except String String) (html : String)
    (hcmd : args.command ≠ [])
    (hconv : convert (run_command_with_capture stdoutStream stderrStream
      statusCode).output_text = Except.ok html) :
    (∀ c : Int, statusCode = some c →
      (mainModel tempDir args stdoutStream stderrStream statusCode elapsedSecs
        convert).2 = Except.ok c) ∧
    (statusCode = none →
      (mainModel tempDir args stdoutStream stderrStream statusCode elapsedSecs
        convert).2 = Except.ok 1) := by
  have hmain : (mainModel tempDir args stdoutStream stderrStream statusCode
      elapsedSecs convert).2 = Except.ok ((run_command_with_capture stdoutStream
        stderrStream statusCode).exit_code) := by
    unfold mainModel
    rw [if_neg hcmd]
    dsimp only
    rw [hconv]
  constructor
  · intro c hc
    subst hc
    rw [hmain]
    rfl
  · intro hc
    subst hc
    rw [hmain]
    rfl

/-- Witness for C7 at a concrete input: child exited with code 7. -/
theorem exit_code_propagation_witness :
    ((⟨some "/o.html", Theme.Dark, ["true"]⟩ : Args).command ≠ [] ∧
      (fun _ : String => (Except.ok "" : Except String String))
        (run_command_with_capture [] [] (some 7)).output_text = Except.ok "") ∧
    (mainModel "/tmp" ⟨some "/o.html", Theme.Dark, ["true"]⟩ [] [] (some 7) 0
      (fun _ => Except.ok "")).2 = Except.ok 7 :=
  ⟨⟨List.cons_ne_nil _ _, rfl⟩,
    (exit_code_propagation "/tmp" ⟨some "/o.html", Theme.Dark, ["true"]⟩ [] []
      (some 7) 0 (fun _ => Except.ok "") "" (List.cons_ne_nil _ _) rfl).1 7 rfl⟩

/-! ### C8 -/

/-- C8: when the external ANSI-to-HTML conversion fails, the run terminates
with an error and writes no output file, and the failure occurs only after
the captured output has been echoed and the console summary block (ending
with the closing separator) has been printed. -/
theorem render_failure_no_file (tempDir : String) (args : Args)
    (stdoutStream stderrStream : List Nat) (statusCode : Option Int)
    (elapsedSecs : Nat) (convert : String → Except String String) (e : String)
    (hcmd : args.command ≠ [])
    (hconv : convert (run_command_with_capture stdoutStream stderrStream
      statusCode).output_text = Except.error e) :
    (mainModel tempDir args stdoutStream stderrStream statusCode elapsedSecs
        convert).2 = Except.error ("Failed to convert ANSI to HTML: " ++ e) ∧
    (∀ p c, Event.fileWrite p c ∉ (mainModel tempDir args stdoutStream
        stderrStream statusCode elapsedSecs convert).1) ∧
    Event.echoOut (run_command_with_capture stdoutStream stderrStream
        statusCode).consoleOut ∈ (mainModel tempDir args stdoutStream
        stderrStream statusCode elapsedSecs convert).1 ∧
    Event.echoErr (run_command_with_capture stdoutStream stderrStream
        statusCode).consoleErr ∈ (mainModel tempDir args stdoutStream
        stderrStream statusCode elapsedSecs convert).1 ∧
    Event.print "---\n\n" ∈ (mainModel tempDir args stdoutStream stderrStream
        statusCode elapsedSecs convert).1 := by
  have hmain : mainModel tempDir args stdoutStream stderrStream statusCode
      elapsedSecs convert =
      ([Event.echoOut (run_command_with_capture stdoutStream stderrStream
          statusCode).consoleOut,
        Event.echoErr (run_command_with_capture stdoutStream stderrStream
          statusCode).consoleErr] ++
        summary_events args.command elapsedSecs
          (run_command_with_capture stdoutStream stderrStream
            statusCode).output_text,
       Except.error ("Failed to convert ANSI to HTML: " ++ e)) := by
    unfold mainModel
    rw [if_neg hcmd]
    dsimp only
    rw [hconv]
  rw [hmain]
  refine ⟨rfl, ?_, ?_, ?_, ?_⟩
  · intro p c hmem
    rw [List.mem_append] at hmem
    rcases hmem with h | h
    · simp at h
    · unfold summary_events at h
      by_cases hl : (run_command_with_capture stdoutStream stderrStream
          statusCode).output_text.data.getLast? = some '\n'
      · simp [hl] at h
      · simp [hl] at h
  · exact List.mem_append_left _ (by simp)
  · exact List.mem_append_left _ (by simp)
  · refine List.mem_append_right _ ?_
    unfold summary_events
    by_cases hl : (run_command_with_capture stdoutStream stderrStream
        statusCode).output_text.data.getLast? = some '\n'
    · simp [hl]
    · simp [hl]

/-- Witness for C8 at a concrete input: a conversion step that always
fails. -/
theorem render_failure_no_file_witness :
    ((⟨none, Theme.Light, ["ls"]⟩ : Args).command ≠ [] ∧
      (fun _ : String => (Except.error "bad" : Except String String))
        (run_command_with_capture [] [] (some 0)).output_text =
          Except.error "bad") ∧
    (mainModel "/tmp" ⟨none, Theme.Light, ["ls"]⟩ [] [] (some 0) 0
      (fun _ => Except.error "bad")).2 =
        Except.error ("Failed to convert ANSI to HTML: " ++ "bad") :=
  ⟨⟨List.cons_ne_nil _ _, rfl⟩,
    (render_failure_no_file "/tmp" ⟨none, Theme.Light, ["ls"]⟩ [] [] (some 0) 0
      (fun _ => Except.error "bad") "bad" (List.cons_ne_nil _ _) rfl).1⟩

/-! ### C10 -/

/-- C10: the frozen `CapturedOutput` text is empty or ends with a newline
character, because every append to the accumulation buffer is a line followed
by exactly one newline byte. -/
theorem captured_output_trailing_newline (stdoutStream stderrStream : List Nat)
    (statusCode : Option Int) :
    (run_command_with_capture stdoutStream stderrStream statusCode).output_text = "" ∨
      (run_command_with_capture stdoutStream stderrStream
        statusCode).output_text.data.getLast? = some '\n' := by
  have hot : (run_command_with_capture stdoutStream stderrStream statusCode).output_text =
      String.mk (utf8_lossy
        ((run_command_with_capture stdoutStream stderrStream statusCode).buffer)) := rfl
  rcases flatten_lines_getLast (splitNL stdoutStream) with h1 | h1 <;>
    rcases flatten_lines_getLast (splitNL stderrStream) with h2 | h2
  · left
    rw [hot, run_buffer_eq, h1, h2]
    rfl
  · right
    have hlast : (run_command_with_capture stdoutStream stderrStream
        statusCode).buffer.getLast? = some 10 := by
      rw [run_buffer_eq, List.getLast?_append, h2]
      rfl
    rw [hot]
    show (utf8_lossy ((run_command_with_capture stdoutStream stderrStream
      statusCode).buffer)).getLast? = some ('\n')
    rw [utf8_lossy_getLast _ hlast]
  · right
    have hlast : (run_command_with_capture stdoutStream stderrStream
        statusCode).buffer.getLast? = some 10 := by
      rw [run_buffer_eq, h2]
      simp only [List.map_nil, List.flatten_nil, List.append_nil]
      exact h1
    rw [hot]
    show (utf8_lossy ((run_command_with_capture stdoutStream stderrStream
      statusCode).buffer)).getLast? = some ('\n')
    rw [utf8_lossy_getLast _ hlast]
  · right
    have hlast : (run_command_with_capture stdoutStream stderrStream
        statusCode).buffer.getLast? = some 10 := by
      rw [run_buffer_eq, List.getLast?_append, h2]
      rfl
    rw [hot]
    show (utf8_lossy ((run_command_with_capture stdoutStream stderrStream
      statusCode).buffer)).getLast? = some ('\n')
    rw [utf8_lossy_getLast _ hlast]

end AnsiSenor
